import Mathlib

/-!
Verification development for the dynamic-form-builder repository.

The embedding below models:
  * the JavaScript value universe manipulated by the form engine
    (`Value`), with JS truthiness and the `||` / `??` operators;
  * the field-descriptor record (`FieldConfig`, from `@/types/fields-type`);
  * `generateDefaultValues` (src/utils/generate-default.ts);
  * the array-field operations `addItem`, `removeItem`, `updateItem` and
    `getDefaultValueForType` (src/components/form-builder/array-field.tsx);
  * the per-field validator synthesis of the `SimpleFormBuilder` component
    (src/components/form-builder/form-editor.tsx, lines 1122-1429), on top of
    a model of the yup (v1) validation library restricted to the combinators
    the source uses;
  * the submit flow `handleSubmit` (form-editor.tsx, lines 1540-1606) wrapped
    in react-hook-form's `handleSubmit`/`trigger` discipline.

JS numbers are modelled as `Int` (all numeric literals used by the engine are
integers); `File` objects are opaque tokens; promises returned by custom
validators are collapsed to their settled outcome (`CustomResult`).
-/

/-- A JavaScript runtime value as seen by the form engine.  Arrays are
heterogeneous lists; `file` is an opaque token; `null` and `undefined` are
distinct, as in JS. -/
inductive Value where
  | str (s : String)
  | num (n : Int)
  | bool (b : Bool)
  | list (l : List Value)
  | file (id : Nat)
  | null
  | undef
deriving Repr

mutual

/-- Decidable equality for `Value` (JS `===` on the modelled fragment). -/
def Value.beq : Value → Value → Bool
  | .str a, .str b => a == b
  | .num a, .num b => a == b
  | .bool a, .bool b => a == b
  | .list a, .list b => Value.beqList a b
  | .file a, .file b => a == b
  | .null, .null => true
  | .undef, .undef => true
  | _, _ => false

/-- Pointwise equality on lists of values. -/
def Value.beqList : List Value → List Value → Bool
  | [], [] => true
  | a :: as, b :: bs => Value.beq a b && Value.beqList as bs
  | _, _ => false

end

mutual

theorem Value.beq_refl : (a : Value) → Value.beq a a = true
  | .str _ => by simp [Value.beq]
  | .num _ => by simp [Value.beq]
  | .bool _ => by simp [Value.beq]
  | .list l => by simp [Value.beq, Value.beqList_refl l]
  | .file _ => by simp [Value.beq]
  | .null => by simp [Value.beq]
  | .undef => by simp [Value.beq]

theorem Value.beqList_refl : (l : List Value) → Value.beqList l l = true
  | [] => by simp [Value.beqList]
  | a :: as => by simp [Value.beqList, Value.beq_refl a, Value.beqList_refl as]

end

mutual

theorem Value.eq_of_beq : {a b : Value} → Value.beq a b = true → a = b
  | .str _, .str _, h => by simpa [Value.beq] using congrArg Value.str (by
      simpa [Value.beq] using h)
  | .num _, .num _, h => by
      have := of_decide_eq_true (by simpa [Value.beq, BEq.beq] using h)
      simp_all
  | .bool _, .bool _, h => by
      have := of_decide_eq_true (by simpa [Value.beq, BEq.beq] using h)
      simp_all
  | .list a, .list b, h => by
      have := Value.eqList_of_beqList (a := a) (b := b) (by simpa [Value.beq] using h)
      simp_all
  | .file _, .file _, h => by
      have := of_decide_eq_true (by simpa [Value.beq, BEq.beq] using h)
      simp_all
  | .null, .null, _ => rfl
  | .undef, .undef, _ => rfl

theorem Value.eqList_of_beqList : {a b : List Value} → Value.beqList a b = true → a = b
  | [], [], _ => rfl
  | x :: xs, y :: ys, h => by
      have h' := h
      simp only [Value.beqList, Bool.and_eq_true] at h'
      have h1 := Value.eq_of_beq (a := x) (b := y) h'.1
      have h2 := Value.eqList_of_beqList (a := xs) (b := ys) h'.2
      simp_all

end

instance : DecidableEq Value := fun a b =>
  if h : Value.beq a b = true then
    .isTrue (Value.eq_of_beq h)
  else
    .isFalse (fun he => h (he ▸ Value.beq_refl a))

/-- JS truthiness (`Boolean(v)`): empty string, 0, false, null, undefined are
falsy; objects (arrays, File) are always truthy. -/
def Value.truthy : Value → Bool
  | .str s => s ≠ ""
  | .num n => n ≠ 0
  | .bool b => b
  | .list _ => true
  | .file _ => true
  | .null => false
  | .undef => false

/-- JS `v == null`: true exactly for `null` and `undefined`. -/
def Value.isAbsent : Value → Bool
  | .null => true
  | .undef => true
  | _ => false

/-- JS `a || b` where `a` is an optional property (`none` = property absent,
which reads as `undefined`). -/
def jsOr (v : Option Value) (d : Value) : Value :=
  match v with
  | some x => if x.truthy then x else d
  | none => d

/-- JS `a ?? b` (nullish coalescing) for an optional property. -/
def jsNullish (v : Option Value) (d : Value) : Value :=
  match v with
  | some .null => d
  | some .undef => d
  | some x => x
  | none => d

/-- JS `a || b` on an optional string property (message overrides in the
source use `||`, so an empty-string override falls back to the default). -/
def jsOrS (v : Option String) (d : String) : String :=
  match v with
  | some s => if s = "" then d else s
  | none => d

/-- The `FieldType` union of `@/types/fields-type` as handled by both
`generateDefaultValues` and the schema-synthesis switch. -/
inductive FieldType where
  | text
  | textarea
  | email
  | password
  | url
  | number
  | select
  | searchableSelect
  | multiSelect
  | checkbox
  | date
  | file
  | array
deriving DecidableEq, Repr

/-- Outcome of invoking a `customValidation` predicate: a settled return value
(for promises, the resolved value) or a fault (synchronous throw or promise
rejection). -/
inductive CustomResult where
  | ret (v : Value)
  | fault
deriving Repr

/-- Model of `ArrayItemConfig`: the payload handed to `getDefaultValueForType`
(the properties that function reads). -/
structure ItemConfig where
  defaultValue : Option Value := none
  uncheckedValue : Option Value := none
  multiple : Bool := false

/-- The flat field-descriptor record (`FieldConfig`), restricted to the
properties read by the default deriver, the schema synthesizer, and the
array-field operations.  `none` models an absent/`undefined` property.
`regex` is the (opaque) RegExp test predicate. -/
structure FieldConfig where
  type : FieldType
  name : String
  label : String
  required : Bool := false
  requiredMessage : Option String := none
  disableError : Bool := false
  customValidation : Option (Value → CustomResult) := none
  customValidationMessage : Option String := none
  defaultValue : Option Value := none
  maxlength : Option Nat := none
  maxlengthMessage : Option String := none
  regex : Option (String → Bool) := none
  regexMessage : Option String := none
  min : Option Int := none
  max : Option Int := none
  minMessage : Option String := none
  maxMessage : Option String := none
  checkedValue : Option Value := none
  uncheckedValue : Option Value := none
  minDate : Option String := none
  maxDate : Option String := none
  multiple : Bool := false
  minItems : Option Nat := none
  maxItems : Option Nat := none
  minItemsMessage : Option String := none
  maxItemsMessage : Option String := none
  itemType : FieldType := .text
  itemConfig : ItemConfig := {}

/-- A JS object used as a string-keyed record: insertion-ordered association
list; assignment overwrites in place (JS property-update semantics). -/
def rset {α : Type} (m : List (String × α)) (k : String) (v : α) : List (String × α) :=
  if m.any (fun p => p.1 = k) then
    m.map (fun p => if p.1 = k then (k, v) else p)
  else
    m ++ [(k, v)]

/-- Delete a key (used to model clearing a field's error slot). -/
def rdel {α : Type} (m : List (String × α)) (k : String) : List (String × α) :=
  m.filter (fun p => p.1 ≠ k)

/-- Property lookup (`none` = key absent). -/
def rget {α : Type} (m : List (String × α)) (k : String) : Option α :=
  (m.find? (fun p => p.1 = k)).map (fun p => p.2)

/-- JS `Object.keys`. -/
def rkeys {α : Type} (m : List (String × α)) : List String :=
  m.map (fun p => p.1)

/-- Reading a field of a JS values object: a missing property is `undefined`. -/
def recGet (m : List (String × Value)) (k : String) : Value :=
  (rget m k).getD (Value.undef)

/-- The per-field default of `generateDefaultValues`
(src/utils/generate-default.ts, the body of the `switch (field.type)`). -/
def defaultForField (f : FieldConfig) : Value :=
  match f.type with
  | .text | .textarea | .email | .password | .url | .date =>
      jsOr f.defaultValue (.str "")
  | .select | .searchableSelect =>
      jsOr f.defaultValue (.str "")
  | .multiSelect =>
      jsOr f.defaultValue (.list [])
  | .checkbox =>
      match f.uncheckedValue with
      | some u => jsNullish f.defaultValue u
      | none => jsNullish f.defaultValue (.bool false)
  | .file =>
      jsOr f.defaultValue (if f.multiple then .list [] else .null)
  | .number =>
      jsNullish f.defaultValue .undef
  | .array =>
      jsOr f.defaultValue (.list [])

/-- The function `generateDefaultValues` (src/utils/generate-default.ts): builds the
default-values record, one assignment per field. -/
def generateDefaultValues (fields : List FieldConfig) : List (String × Value) :=
  fields.foldl (fun acc f => rset acc f.name (defaultForField f)) []

/-- The function `getDefaultValueForType` (src/components/form-builder/array-field.tsx,
lines 125-168): the default value for one freshly added array item.  Note the
`number` case uses `defaultValue ?? 0`, unlike generate-default.ts. -/
def getDefaultValueForType (type : FieldType) (config : ItemConfig) : Value :=
  match type with
  | .text | .textarea | .email | .password | .url | .date =>
      jsOr config.defaultValue (.str "")
  | .number =>
      jsNullish config.defaultValue (.num 0)
  | .select | .searchableSelect =>
      jsOr config.defaultValue (.str "")
  | .multiSelect =>
      jsOr config.defaultValue (.list [])
  | .checkbox =>
      match config.uncheckedValue with
      | some u => jsNullish config.defaultValue u
      | none => jsNullish config.defaultValue (.bool false)
  | .file =>
      jsOr config.defaultValue (if config.multiple then .list [] else .null)
  | _ =>
      .str ""

/-- The operation `addItem` (array-field.tsx, lines 81-86).  The guard is the JS truthiness
test `if (maxItems && arrayValue.length >= maxItems) return;`, so an
undefined or zero `maxItems` never blocks the append. -/
def addItem (f : FieldConfig) (arrayValue : List Value) : List Value :=
  match f.maxItems with
  | some n =>
      if n ≠ 0 ∧ arrayValue.length ≥ n then arrayValue
      else arrayValue ++ [getDefaultValueForType f.itemType f.itemConfig]
  | none => arrayValue ++ [getDefaultValueForType f.itemType f.itemConfig]

/-- The operation `removeItem` (array-field.tsx, lines 88-93): destructuring gives
`minItems = 0` when the property is undefined; removal is
`arrayValue.filter((_, i) => i !== index)`. -/
def removeItem (f : FieldConfig) (arrayValue : List Value) (index : Nat) : List Value :=
  if arrayValue.length ≤ f.minItems.getD 0 then arrayValue
  else ((arrayValue.enum.filter (fun p => p.1 ≠ index)).map (fun p => p.2))

/-- JS element assignment `a[i] = x` on a copy of the array: in-bounds indices
are replaced; an index at or past the length extends the array, the holes
reading back as `undefined`. -/
def jsArraySet (l : List Value) (i : Nat) (x : Value) : List Value :=
  if i < l.length then l.set i x
  else l ++ List.replicate (i - l.length) Value.undef ++ [x]

/-- The operation `updateItem` (array-field.tsx, lines 106-123):
`const newArray = [...arrayValue]; newArray[index] = newValue;`. -/
def updateItem (arrayValue : List Value) (index : Nat) (newValue : Value) : List Value :=
  jsArraySet arrayValue index newValue

/-! ## Model of the yup (v1) validation library

Only the combinators used by form-editor.tsx are modelled.  Key yup-v1
behaviors encoded below, each load-bearing for the source's schema:
  * schemas are non-nullable by default; `null` fails a dedicated nullability
    check (`locale.notNull`) unless `.nullable()` was called — the source
    itself works around this with `yup.mixed().nullable()` for single files;
  * `required(msg)` makes both `undefined` and `null` fail with `msg`; for
    string schemas it additionally rejects the empty string;
  * `oneOf(values, msg)` ACCUMULATES: each call adds to the schema's
    whitelist set and replaces the whitelist test's message; the test passes
    when the value is a member of the accumulated set (or is absent);
  * `.test(name, msg, fn)` appends an ordinary test that runs on the cast
    value (including `null`/`undefined`);
  * validation casts first; a failed cast/type check reports the schema's
    typeError message.
-/

/-- The base kind of a yup schema chain used by the source. -/
inductive YKind where
  | mixed
  | str
  | num
  | boolean
  | arr
deriving DecidableEq, Repr

/-- External format predicates that yup implements with regexes and `Date`
parsing: email shape, URL shape, and `new Date` comparisons.  They are kept
abstract; no claim depends on their exact behavior. -/
structure FormatOracle where
  email : String → Bool
  url : String → Bool
  dateGE : String → String → Bool
  dateLE : String → String → Bool

/-- A synthesized yup schema: base kind plus the flags and test lists the
source's combinator chains can produce. -/
structure YSchema where
  kind : YKind
  typeErrMsg : Option String := none
  nullable : Bool := false
  requiredMsg : Option String := none
  whitelist : List Value := []
  whitelistMsg : String := ""
  tests : List (String × (Value → Bool)) := []
  customTests : List (String × (Value → CustomResult)) := []

/-- Builder `yup.mixed()`. -/
def Y.mixed : YSchema := { kind := .mixed }

/-- Builder `yup.string()`. -/
def Y.string : YSchema := { kind := .str }

/-- Builder `yup.number().typeError(msg)` (the source always attaches the message). -/
def Y.number (typeErr : String) : YSchema := { kind := .num, typeErrMsg := some typeErr }

/-- Builder `yup.boolean()`. -/
def Y.boolean : YSchema := { kind := .boolean }

/-- Builder `yup.array()` (also `yup.array().of(...)`: the inner item schema the
source uses — `yup.string()` / `yup.mixed()` — never rejects the item values
the engine produces, so `.of` is modelled as the identity). -/
def Y.array : YSchema := { kind := .arr }

/-- Builder `.required(msg)`. -/
def Y.required (msg : String) (s : YSchema) : YSchema := { s with requiredMsg := some msg }

/-- Builder `.nullable()`. -/
def Y.nullable (s : YSchema) : YSchema := { s with nullable := true }

/-- Builder `.oneOf(vals, msg)`: adds to the whitelist set, replaces the message. -/
def Y.oneOf (vals : List Value) (msg : String) (s : YSchema) : YSchema :=
  { s with whitelist := s.whitelist ++ vals.filter (fun v => ¬ s.whitelist.contains v),
           whitelistMsg := msg }

/-- Builder `.test(name, msg, fn)`. -/
def Y.test (msg : String) (f : Value → Bool) (s : YSchema) : YSchema :=
  { s with tests := s.tests ++ [(msg, f)] }

/-- The async custom-validation `.test` the source appends last: its result
is the settled outcome of `await field.customValidation(value)` inside
`try { ... } catch { return false }`. -/
def Y.testCustom (msg : String) (f : Value → CustomResult) (s : YSchema) : YSchema :=
  { s with customTests := s.customTests ++ [(msg, f)] }

/-- Builder `.max(n, msg)` on a string schema (skips absent values). -/
def Y.strMax (n : Nat) (msg : String) (s : YSchema) : YSchema :=
  Y.test msg (fun v => match v with
    | .str t => t.length ≤ n
    | _ => true) s

/-- Builder `.matches(regex, msg)` (default options: absent skips, the empty string
is tested against the regex). -/
def Y.strMatches (p : String → Bool) (msg : String) (s : YSchema) : YSchema :=
  Y.test msg (fun v => match v with
    | .str t => p t
    | _ => true) s

/-- Builder `.email(msg)`: a `matches` with `excludeEmptyString: true`. -/
def Y.strEmail (O : FormatOracle) (msg : String) (s : YSchema) : YSchema :=
  Y.test msg (fun v => match v with
    | .str t => t = "" ∨ O.email t
    | _ => true) s

/-- Builder `.url(msg)`: a `matches` with `excludeEmptyString: true`. -/
def Y.strUrl (O : FormatOracle) (msg : String) (s : YSchema) : YSchema :=
  Y.test msg (fun v => match v with
    | .str t => t = "" ∨ O.url t
    | _ => true) s

/-- Builder `.min(n, msg)` on an array schema (skips absent values). -/
def Y.arrMin (n : Nat) (msg : String) (s : YSchema) : YSchema :=
  Y.test msg (fun v => match v with
    | .list l => n ≤ l.length
    | _ => true) s

/-- Builder `.max(n, msg)` on an array schema (skips absent values). -/
def Y.arrMax (n : Nat) (msg : String) (s : YSchema) : YSchema :=
  Y.test msg (fun v => match v with
    | .list l => l.length ≤ n
    | _ => true) s

/-- Integer literal parsing, the restriction of yup's string-to-number cast
to the integer numerals the engine's fields carry. -/
def parseIntStr (s : String) : Option Int :=
  if s = "" then none
  else if s.front = '-' then
    (if (s.drop 1).all Char.isDigit ∧ s.drop 1 ≠ "" then some (-(s.drop 1).toNat!) else none)
  else if s.all Char.isDigit then some s.toNat!
  else none

/-- The type-cast phase of yup validation for each base kind.  `none` is a
failed cast / type check (reported with the typeError message). `null` and
`undefined` pass through every cast untouched. -/
def castVal : YKind → Value → Option Value
  | _, .null => some .null
  | _, .undef => some .undef
  | .mixed, v => some v
  | .str, .str s => some (.str s)
  | .str, .num n => some (.str (toString n))
  | .str, .bool b => some (.str (cond b "true" "false"))
  | .str, _ => none
  | .num, .num n => some (.num n)
  | .num, .str s => (parseIntStr s).map Value.num
  | .num, _ => none
  | .boolean, .bool b => some (.bool b)
  | .boolean, .str s =>
      if s = "true" then some (.bool true)
      else if s = "false" then some (.bool false) else none
  | .boolean, _ => none
  | .arr, .list l => some (.list l)
  | .arr, _ => none

/-- Model of `locale.notType` (no claim depends on its wording). -/
def defaultNotTypeMsg : String := "value is of the wrong type"

/-- Model of `locale.notNull`, the error a non-nullable schema reports for
`null` (no claim depends on its wording). -/
def notNullMsg : String := "value cannot be null"

/-- The presence / nullability errors of a schema on a cast value. -/
def runPresence (s : YSchema) (cv : Value) : List String :=
  match s.requiredMsg with
  | some m =>
      if cv.isAbsent then [m]
      else if s.kind = .str ∧ cv = .str "" then [m]
      else []
  | none =>
      if cv = .null ∧ s.nullable = false then [notNullMsg] else []

/-- The whitelist (`oneOf`) error on a cast value: membership in the
accumulated whitelist; absent values are skipped. -/
def runWhitelist (s : YSchema) (cv : Value) : List String :=
  if s.whitelist ≠ [] ∧ cv.isAbsent = false ∧ s.whitelist.contains cv = false then
    [s.whitelistMsg]
  else []

/-- Run the ordinary tests of the chain, collecting failure messages. -/
def runTests (tests : List (String × (Value → Bool))) (cv : Value) : List String :=
  tests.filterMap (fun p => if p.2 cv then none else some p.1)

/-- Run the custom-validation tests: a settled return of literal `true` or
`""` passes; any other return value, a throw, or a rejection fails. -/
def runCustomTests (tests : List (String × (Value → CustomResult)))
    (cv : Value) : List String :=
  tests.filterMap (fun p =>
    match p.2 cv with
    | .ret r => if r = .bool true ∨ r = .str "" then none else some p.1
    | .fault => some p.1)

/-- Validation of one value against a synthesized schema (`abortEarly: false`
over the whole chain): the list of error messages, empty when valid. -/
def yval (s : YSchema) (v : Value) : List String :=
  match castVal s.kind v with
  | none => [s.typeErrMsg.getD defaultNotTypeMsg]
  | some cv =>
      runPresence s cv ++ runWhitelist s cv ++ runTests s.tests cv ++
        runCustomTests s.customTests cv

/-! ## Schema synthesis (form-editor.tsx, SimpleFormBuilder, lines 1122-1429) -/

/-- The default required message `field.requiredMessage || `${field.label} is
required``. -/
def reqMsg (f : FieldConfig) : String :=
  jsOrS f.requiredMessage (f.label ++ " is required")

/-- The min-bound test closure the source installs for `number` fields
(form-editor.tsx lines 1347-1357): absent values skip the check, and the mere
presence of a `customValidation` on the field makes the check pass. -/
def numMinTest (f : FieldConfig) (m : Int) : Value → Bool := fun v =>
  if v.isAbsent then true
  else if f.customValidation.isSome then true
  else match v with
    | .num n => m ≤ n
    | _ => false

/-- The max-bound test closure for `number` fields (lines 1360-1370). -/
def numMaxTest (f : FieldConfig) (m : Int) : Value → Bool := fun v =>
  if v.isAbsent then true
  else if f.customValidation.isSome then true
  else match v with
    | .num n => n ≤ m
    | _ => false

/-- The shared chain of the `text`, `textarea` and `password` cases (the
three source blocks are verbatim identical, lines 1151-1215):
`yup.string()`, then required, maxlength, regex. -/
def textChain (f : FieldConfig) : YSchema :=
  let v := Y.string
  let v := if f.required then Y.required (reqMsg f) v else v
  let v := match f.maxlength with
    | some n => if n ≠ 0 then
        Y.strMax n (jsOrS f.maxlengthMessage
          (f.label ++ " must be at most " ++ toString n ++ " characters")) v
      else v
    | none => v
  match f.regex with
  | some p => Y.strMatches p (jsOrS f.regexMessage (f.label ++ " format is invalid")) v
  | none => v

/-- The `switch (field.type)` of the `fields.forEach` loop of
`SimpleFormBuilder` (form-editor.tsx lines 1133-1398): the validator chain
before the custom-validation wrapper. -/
def baseValidator (O : FormatOracle) (f : FieldConfig) : YSchema :=
  match f.type with
      | .email =>
          let v := Y.strEmail O (f.label ++ " must be a valid email address") Y.string
          let v := if f.required then Y.required (reqMsg f) v else v
          match f.regex with
          | some p => Y.strMatches p (jsOrS f.regexMessage (f.label ++ " format is invalid")) v
          | none => v
      | .text => textChain f
      | .textarea => textChain f
      | .password => textChain f
      | .url =>
          let v := Y.strUrl O (f.label ++ " must be a valid URL") Y.string
          let v := if f.required then Y.required (reqMsg f) v else v
          let v := match f.maxlength with
            | some n => if n ≠ 0 then
                Y.strMax n (jsOrS f.maxlengthMessage
                  (f.label ++ " must be at most " ++ toString n ++ " characters")) v
              else v
            | none => v
          match f.regex with
          | some p => Y.strMatches p (jsOrS f.regexMessage (f.label ++ " format is invalid")) v
          | none => v
      | .select =>
          if f.required then Y.required (reqMsg f) Y.string else Y.string
      | .multiSelect =>
          if f.required then Y.required (reqMsg f) Y.array else Y.array
      | .searchableSelect =>
          if f.required then Y.required (reqMsg f) Y.string else Y.string
      | .checkbox =>
          match f.checkedValue, f.uncheckedValue with
          | some c, some u =>
              let v := Y.oneOf [c, u] "value must be one of the allowed values" Y.mixed
              if f.required then Y.oneOf [c] (reqMsg f) v else v
          | _, _ =>
              let v := Y.boolean
              if f.required then Y.oneOf [.bool true] (reqMsg f) v else v
      | .date =>
          let v := Y.string
          let v := if f.required then Y.required (reqMsg f) v else v
          let v := match f.minDate with
            | some md => if md ≠ "" then
                Y.test (f.label ++ " must be on or after " ++ md)
                  (fun w => match w with
                    | .str s => if s = "" then true else O.dateGE s md
                    | _ => true) v
              else v
            | none => v
          match f.maxDate with
          | some md => if md ≠ "" then
              Y.test (f.label ++ " must be on or before " ++ md)
                (fun w => match w with
                  | .str s => if s = "" then true else O.dateLE s md
                  | _ => true) v
            else v
          | none => v
      | .file =>
          let v := if f.multiple then Y.array else Y.nullable Y.mixed
          if f.required then Y.required (reqMsg f) v else v
      | .number =>
          let v := Y.number (f.label ++ " must be a number")
          let v := if f.required then Y.required (reqMsg f) v else Y.nullable v
          let v := match f.min with
            | some m => Y.test
                (jsOrS f.minMessage (f.label ++ " must be at least " ++ toString m))
                (numMinTest f m) v
            | none => v
          match f.max with
          | some m => Y.test
              (jsOrS f.maxMessage (f.label ++ " must be at most " ++ toString m))
              (numMaxTest f m) v
          | none => v
      | .array =>
          let v := Y.array
          let v := if f.required then Y.required (reqMsg f) v else v
          let v := match f.minItems with
            | some m => Y.arrMin m (jsOrS f.minItemsMessage
                (f.label ++ " must have at least " ++ toString m ++ " items")) v
            | none => v
          match f.maxItems with
          | some m => Y.arrMax m (jsOrS f.maxItemsMessage
              (f.label ++ " must have at most " ++ toString m ++ " items")) v
          | none => v

/-- The complete per-field validator (form-editor.tsx lines 1124-1429): the
`disableError` short-circuit (lines 1127-1131), the `switch` above, and the
custom-validation wrapper (lines 1400-1426). -/
def fieldValidator (O : FormatOracle) (f : FieldConfig) : YSchema :=
  if f.disableError then Y.mixed
  else
    match f.customValidation with
    | some g =>
        Y.testCustom (jsOrS f.customValidationMessage (f.label ++ " is invalid")) g
          (baseValidator O f)
    | none => baseValidator O f

/-- The `schemaShape` record (form-editor.tsx line 1122 and the forEach that
fills it): one validator entry per field. -/
def schemaShape (O : FormatOracle) (fields : List FieldConfig) : List (String × YSchema) :=
  fields.foldl (fun acc f => rset acc f.name (fieldValidator O f)) []

/-! ## Submit flow (form-editor.tsx lines 1497-1606) under the
react-hook-form discipline: the resolver reports the first yup error per
field; `trigger(name)` re-runs the resolver for that field and overwrites
(or clears) that field's error slot, including errors previously planted
with `setError`. -/

/-- Resolver validation of one field: the first error message, if any. -/
def validateField (O : FormatOracle) (f : FieldConfig) (v : Value) : Option String :=
  (yval (fieldValidator O f) v).head?

/-- Resolver validation of every field of the form, as run by
`form.handleSubmit` before it decides whether to call the inner callback. -/
def validateAll (O : FormatOracle) (fields : List FieldConfig)
    (data : List (String × Value)) : List (String × String) :=
  fields.foldl (fun errs f =>
    match validateField O f (recGet data f.name) with
    | some m => rset errs f.name m
    | none => rdel errs f.name) []

/-- JS `Array.isArray(value) ? value : []` (form-editor.tsx line 1545). -/
def asArray (v : Value) : List Value :=
  match v with
  | .list l => l
  | _ => []

/-- The manual re-validation of one array field inside `handleSubmit`
(form-editor.tsx lines 1543-1580): `setError` for minItems, then maxItems,
then required, each under its own condition. -/
def manualCheckField (f : FieldConfig) (data : List (String × Value))
    (errs : List (String × String)) : List (String × String) :=
  let arrayValue := asArray (recGet data f.name)
  let errs := match f.minItems with
    | some m => if arrayValue.length < m then
        rset errs f.name (jsOrS f.minItemsMessage
          (f.label ++ " must have at least " ++ toString m ++ " items"))
      else errs
    | none => errs
  let errs := match f.maxItems with
    | some n => if arrayValue.length > n then
        rset errs f.name (jsOrS f.maxItemsMessage
          (f.label ++ " must have at most " ++ toString n ++ " items"))
      else errs
    | none => errs
  if f.required ∧ arrayValue.length = 0 then
    rset errs f.name (reqMsg f)
  else errs

/-- Phase one of `handleSubmit`: the manual array re-check over
`fields.filter(type === "array")`. -/
def manualArrayCheck (fields : List FieldConfig) (data : List (String × Value))
    (errs : List (String × String)) : List (String × String) :=
  (fields.filter (fun f => f.type = .array)).foldl
    (fun e f => manualCheckField f data e) errs

/-- Model of `form.trigger(field.name)` for every field (form-editor.tsx lines
1582-1586): each trigger overwrites that field's error slot with the
resolver's result for it. -/
def triggerAll (O : FormatOracle) (fields : List FieldConfig)
    (data : List (String × Value)) (errs : List (String × String)) :
    List (String × String) :=
  fields.foldl (fun e f =>
    match validateField O f (recGet data f.name) with
    | some m => rset e f.name m
    | none => rdel e f.name) errs

/-- The body of `handleSubmit` (form-editor.tsx lines 1540-1606): manual
array checks, then triggering validation of every field, then the
`hasErrors` decision.  Returns the final error map and whether the host
callback fires. -/
def handleSubmit (O : FormatOracle) (fields : List FieldConfig)
    (data : List (String × Value)) : List (String × String) × Bool :=
  let errs1 := manualArrayCheck fields data []
  let errs2 := triggerAll O fields data errs1
  (errs2, errs2.isEmpty)

/-- The imperative `submit()` operation: `form.handleSubmit(handleSubmit)()`
— react-hook-form first runs the resolver over all fields and only calls the
inner `handleSubmit` when that validation produced no errors.  The second
component is the argument passed to the host's `onSubmit` callback (`none`
when the callback is not invoked). -/
def submitOp (O : FormatOracle) (fields : List FieldConfig)
    (data : List (String × Value)) :
    List (String × String) × Option (List (String × Value)) :=
  let pre := validateAll O fields data
  if pre.isEmpty then
    let r := handleSubmit O fields data
    (r.1, if r.2 then some data else none)
  else
    (pre, none)

/-! ## Helper lemmas about the record operations -/

theorem rset_nil {α : Type} (k : String) (v : α) : rset ([] : List (String × α)) k v = [(k, v)] := by
  simp [rset]

theorem rset_single {α : Type} (k : String) (a v : α) : rset [(k, a)] k v = [(k, v)] := by
  simp [rset]

theorem rget_nil {α : Type} (k : String) : rget ([] : List (String × α)) k = none := by
  simp [rget]

theorem rget_single {α : Type} (k : String) (a : α) : rget [(k, a)] k = some a := by
  simp [rget, List.find?]

theorem rget_rset_self {α : Type} (m : List (String × α)) (k : String) (v : α) :
    rget (rset m k v) k = some v := by
  unfold rset rget
  by_cases h : (m.any (fun p => p.1 = k)) = true
  · rw [if_pos h]
    simp only [List.any_eq_true, decide_eq_true_eq] at h
    induction m with
    | nil => simp at h
    | cons p t ih =>
        by_cases hp : p.1 = k
        · simp [List.find?, hp]
        · have ht : ∃ q ∈ t, q.1 = k := by
            rcases h with ⟨q, hq, he⟩
            rcases List.mem_cons.mp hq with h1 | h2
            · exact absurd (h1 ▸ he) hp
            · exact ⟨q, h2, he⟩
          simpa [List.find?, hp] using ih ht
  · rw [if_neg h]
    have hall : ∀ q ∈ m, ¬ (q.1 = k) := by
      intro q hq he
      exact h (List.any_eq_true.mpr ⟨q, hq, by simpa using he⟩)
    have hfind : m.find? (fun p => decide (p.1 = k)) = none := by
      rw [List.find?_eq_none]
      intro q hq
      simpa using hall q hq
    rw [List.find?_append, hfind]
    simp [List.find?]

theorem rget_rdel_self {α : Type} (m : List (String × α)) (k : String) :
    rget (rdel m k) k = none := by
  unfold rdel rget
  induction m with
  | nil => simp
  | cons p t ih =>
      by_cases hp : p.1 = k
      · simp [hp, ih]
      · simp only [List.filter_cons, decide_not]
        simp [List.find?, hp, ih]

theorem rkeys_rset {α : Type} (m : List (String × α)) (k : String) (v : α) :
    rkeys (rset m k v) = if k ∈ rkeys m then rkeys m else rkeys m ++ [k] := by
  unfold rset rkeys
  by_cases h : (m.any (fun p => p.1 = k)) = true
  · have hk : k ∈ m.map (fun p => p.1) := by
      simp only [List.any_eq_true, decide_eq_true_eq] at h
      rcases h with ⟨p, hp, he⟩
      exact he ▸ List.mem_map_of_mem _ hp
    rw [if_pos h, if_pos hk, List.map_map]
    refine List.map_congr_left ?_
    intro p _
    by_cases hp : p.1 = k <;> simp [hp]
  · have hk : k ∉ m.map (fun p => p.1) := by
      intro hmem
      rcases List.mem_map.mp hmem with ⟨p, hp, he⟩
      exact h (List.any_eq_true.mpr ⟨p, hp, by simpa using he⟩)
    rw [if_neg h, if_neg hk, List.map_append]
    rfl

theorem rkeys_fold {α : Type} (g : FieldConfig → α) (fields : List FieldConfig)
    (acc : List (String × α)) :
    rkeys (fields.foldl (fun a f => rset a f.name (g f)) acc) =
      fields.foldl (fun ks f => if f.name ∈ ks then ks else ks ++ [f.name]) (rkeys acc) := by
  induction fields generalizing acc with
  | nil => rfl
  | cons f t ih =>
      simp only [List.foldl_cons]
      rw [ih, rkeys_rset]

theorem mem_keys_fold (fields : List FieldConfig) (ks0 : List String) (n : String) :
    n ∈ fields.foldl (fun ks f => if f.name ∈ ks then ks else ks ++ [f.name]) ks0 ↔
      n ∈ ks0 ∨ n ∈ fields.map (fun f => f.name) := by
  induction fields generalizing ks0 with
  | nil => simp
  | cons f t ih =>
      simp only [List.foldl_cons, List.map_cons, List.mem_cons]
      rw [ih]
      by_cases hf : f.name ∈ ks0
      · rw [if_pos hf]
        constructor
        · rintro (h | h)
          · exact Or.inl h
          · exact Or.inr (Or.inr h)
        · rintro (h | h | h)
          · exact Or.inl h
          · exact Or.inl (h ▸ hf)
          · exact Or.inr h
      · rw [if_neg hf]
        simp only [List.mem_append, List.mem_singleton]
        tauto

/-! ## Structural lemmas about the synthesized validators -/

theorem baseValidator_customTests (O : FormatOracle) (f : FieldConfig) :
    (baseValidator O f).customTests = [] := by
  unfold baseValidator textChain
  cases f.type <;>
    simp only [Y.string, Y.number, Y.boolean, Y.array, Y.mixed, Y.required, Y.nullable,
      Y.oneOf, Y.test, Y.testCustom, Y.strMax, Y.strMatches, Y.strEmail, Y.strUrl,
      Y.arrMin, Y.arrMax] <;>
    (repeat' split) <;> simp

theorem fieldValidator_kind (O : FormatOracle) (f : FieldConfig)
    (h : f.disableError = false) :
    (fieldValidator O f).kind = (baseValidator O f).kind := by
  unfold fieldValidator
  rw [if_neg (by simp [h])]
  cases hc : f.customValidation <;> simp [Y.testCustom]

theorem fieldValidator_tests (O : FormatOracle) (f : FieldConfig)
    (h : f.disableError = false) :
    (fieldValidator O f).tests = (baseValidator O f).tests := by
  unfold fieldValidator
  rw [if_neg (by simp [h])]
  cases hc : f.customValidation <;> simp [Y.testCustom]

/-- Claim C6: for every field list, the key set of the derived default-value
map equals the key set of the synthesized schema shape, and both equal the
set of field names (each field writes exactly one entry into each record). -/
theorem default_schema_key_parity (O : FormatOracle) (fields : List FieldConfig) :
    rkeys (generateDefaultValues fields) = rkeys (schemaShape O fields) ∧
    ∀ n, n ∈ rkeys (generateDefaultValues fields) ↔ n ∈ fields.map (fun f => f.name) := by
  constructor
  · unfold generateDefaultValues schemaShape
    rw [rkeys_fold, rkeys_fold]
    rfl
  · intro n
    unfold generateDefaultValues
    rw [rkeys_fold]
    have h0 : rkeys ([] : List (String × Value)) = [] := rfl
    rw [h0, mem_keys_fold]
    simp

/-- An array field whose `maxItems` is 0: the JS truthiness guard
`maxItems && length >= maxItems` is falsy, so `addItem` appends anyway. -/
def itemsCap0 : FieldConfig :=
  { type := FieldType.array, name := "xs", label := "Xs", maxItems := some 0 }

/-- Counterexample to claim C7 as stated: with `maxItems = 0` the array
already has length `>= maxItems`, yet `addItem` does not leave it
unchanged — the truthiness guard treats a zero cap as "no cap". -/
theorem addItem_ignores_zero_cap :
    itemsCap0.maxItems = some 0 ∧
    ([] : List Value).length ≥ 0 ∧
    addItem itemsCap0 [] ≠ [] := by
  refine ⟨rfl, Nat.le_refl 0, ?_⟩
  decide

theorem enumFrom_filter_ne_of_lt {α : Type} (l : List α) (k i : Nat) (h : i < k) :
    (List.enumFrom k l).filter (fun p => p.1 ≠ i) = List.enumFrom k l := by
  induction l generalizing k with
  | nil => rfl
  | cons x t ih =>
      have hk : k ≠ i := by omega
      simp only [List.enumFrom, List.filter_cons]
      simp [hk, ih (k + 1) (by omega)]
      intro a b hab
      have hmem := List.mem_enumFrom hab
      omega

theorem enumFrom_filter_ne_map_snd {α : Type} (l : List α) (k j : Nat) :
    ((List.enumFrom k l).filter (fun p => p.1 ≠ k + j)).map Prod.snd = l.eraseIdx j := by
  induction l generalizing k j with
  | nil => rfl
  | cons x t ih =>
      cases j with
      | zero =>
          have hk : ¬ (k ≠ k + 0) := by omega
          simp only [List.enumFrom, List.filter_cons]
          simp only [List.eraseIdx]
          rw [enumFrom_filter_ne_of_lt t (k + 1) (k + 0) (by omega)]
          simp [hk, List.enumFrom_map_snd]
      | succ j' =>
          have hk : k ≠ k + (j' + 1) := by omega
          have ih' := ih (k + 1) j'
          rw [show k + 1 + j' = k + (j' + 1) by omega] at ih'
          simp only [List.enumFrom, List.filter_cons]
          simp only [List.eraseIdx]
          simp [hk]
          simpa using ih'

/-- The removal step of `removeItem` is `List.eraseIdx` at the given index. -/
theorem removeItem_filter_eq_eraseIdx (av : List Value) (i : Nat) :
    ((av.enum.filter (fun p => p.1 ≠ i)).map (fun p => p.2)) = av.eraseIdx i := by
  have h := enumFrom_filter_ne_map_snd av 0 i
  simpa [List.enum] using h

/-- Claim C7 (amended): for an array field with a nonzero `maxItems = n`,
`addItem` is a no-op at or above the cap and never grows the length past
`n`; for `minItems = m`, `removeItem` is a no-op at or below the floor and
never shrinks the length below `m`. -/
theorem array_cardinality_ops (f : FieldConfig) (av : List Value) (i : Nat) (m n : Nat) :
    (f.maxItems = some n → 1 ≤ n →
      (av.length ≥ n → addItem f av = av) ∧
      (av.length ≤ n → (addItem f av).length ≤ n)) ∧
    (f.minItems = some m →
      (av.length ≤ m → removeItem f av i = av) ∧
      (m ≤ av.length → m ≤ (removeItem f av i).length)) := by
  constructor
  · intro hmax hn
    constructor
    · intro hlen
      simp only [addItem, hmax]
      rw [if_pos ⟨by omega, hlen⟩]
    · intro hlen
      simp only [addItem, hmax]
      by_cases hge : av.length ≥ n
      · rw [if_pos ⟨by omega, hge⟩]; exact hlen
      · rw [if_neg (by intro hcon; exact hge hcon.2)]
        simp only [List.length_append, List.length_cons, List.length_nil]
        omega
  · intro hmin
    constructor
    · intro hle
      simp only [removeItem, hmin, Option.getD_some]
      rw [if_pos hle]
    · intro hge
      simp only [removeItem, hmin, Option.getD_some]
      by_cases hle : av.length ≤ m
      · rw [if_pos hle]; exact hge
      · rw [if_neg hle]
        rw [removeItem_filter_eq_eraseIdx, List.length_eraseIdx]
        by_cases hi : i < av.length <;> simp [hi] <;> omega

/-- Claim C7 witness. -/
theorem array_cardinality_ops_witness :
    (addItem { type := FieldType.array, name := "xs", label := "Xs", maxItems := some 2 }
        [Value.str "a", Value.str "b"] = [Value.str "a", Value.str "b"]) ∧
    (1 ≤ (removeItem { type := FieldType.array, name := "xs", label := "Xs", minItems := some 1 }
        [Value.str "a", Value.str "b"] 0).length) :=
  ⟨((array_cardinality_ops _ [Value.str "a", Value.str "b"] 0 0 2).1 rfl (by decide)).1 (by decide),
   ((array_cardinality_ops _ [Value.str "a", Value.str "b"] 0 1 0).2 rfl).2 (by decide)⟩

/-- An array-of-number field with no item default configured. -/
def numberItems : FieldConfig :=
  { type := FieldType.array, name := "ns", label := "Ns", maxItems := some 5,
    itemType := FieldType.number }

/-- Counterexample to claim C8 as stated: below the cap, the item appended
for `itemType: "number"` with no `defaultValue` is the number 0 — the
`getDefaultValueForType` in array-field.tsx uses `defaultValue ?? 0`, not
the `defaultValue ?? undefined` of generate-default.ts. -/
theorem addItem_number_default_is_zero :
    numberItems.itemConfig.defaultValue = none ∧
    ([] : List Value).length < 5 ∧
    addItem numberItems [] = [Value.num 0] ∧
    Value.num 0 ≠ Value.undef := by
  refine ⟨rfl, by decide, by decide, by decide⟩

/-- Claim C8 (amended): below the `maxItems` cap (or with no cap), `addItem`
appends exactly one item, namely `getDefaultValueForType itemType
itemConfig`; for `number` items with no configured default that value
is 0. -/
theorem addItem_appends_one_default (f : FieldConfig) (av : List Value) (n : Nat)
    (cfg : ItemConfig) :
    (f.maxItems = some n → av.length < n →
      addItem f av = av ++ [getDefaultValueForType f.itemType f.itemConfig]) ∧
    (f.maxItems = none →
      addItem f av = av ++ [getDefaultValueForType f.itemType f.itemConfig]) ∧
    (cfg.defaultValue = none →
      getDefaultValueForType FieldType.number cfg = Value.num 0) := by
  refine ⟨?_, ?_, ?_⟩
  · intro hmax hlt
    simp only [addItem, hmax]
    rw [if_neg (by intro hcon; omega)]
  · intro hmax
    simp only [addItem, hmax]
  · intro hd
    simp [getDefaultValueForType, jsNullish, hd]

/-- Claim C8 witness. -/
theorem addItem_appends_one_default_witness :
    addItem numberItems [] = [] ++ [getDefaultValueForType FieldType.number {}] ∧
    getDefaultValueForType FieldType.number {} = Value.num 0 :=
  ⟨(addItem_appends_one_default numberItems [] 5 {}).1 rfl (by decide),
   (addItem_appends_one_default numberItems [] 5 {}).2.2 rfl⟩

/-- Counterexample to claim C9 as stated: `updateItem` at an index outside
the bounds of the array resizes it (JS element assignment extends the
array). -/
theorem updateItem_resizes_out_of_bounds :
    updateItem ([] : List Value) 0 (Value.str "x") = [Value.str "x"] ∧
    (updateItem ([] : List Value) 0 (Value.str "x")).length ≠ ([] : List Value).length := by
  refine ⟨by decide, by decide⟩

/-- Claim C9 (amended): for an in-bounds index, `updateItem` preserves the
length, writes the new value at that index, and leaves every other position
unchanged; for an index at or past the length, it extends the array to
length `index + 1`, the padding reading as `undefined`. -/
theorem updateItem_replaces_at_index (av : List Value) (i : Nat) (x : Value) :
    (i < av.length →
      (updateItem av i x).length = av.length ∧
      (updateItem av i x)[i]? = some x ∧
      ∀ j, j ≠ i → (updateItem av i x)[j]? = av[j]?) ∧
    (av.length ≤ i →
      updateItem av i x = av ++ List.replicate (i - av.length) Value.undef ++ [x]) := by
  constructor
  · intro h
    unfold updateItem jsArraySet
    rw [if_pos h]
    refine ⟨List.length_set av i x, ?_, ?_⟩
    · rw [List.getElem?_set_self']
      simp [List.getElem?_eq_getElem h]
    · intro j hj
      rw [List.getElem?_set_ne (fun he => hj he.symm)]
  · intro h
    unfold updateItem jsArraySet
    rw [if_neg (by omega)]

/-- Claim C9 witness. -/
theorem updateItem_replaces_at_index_witness :
    ((updateItem [Value.num 1, Value.num 2] 0 (Value.num 9)).length = 2 ∧
      (updateItem [Value.num 1, Value.num 2] 0 (Value.num 9))[1]? = some (Value.num 2)) ∧
    updateItem [Value.num 1] 3 (Value.num 9) =
      [Value.num 1] ++ List.replicate 2 Value.undef ++ [Value.num 9] :=
  ⟨⟨((updateItem_replaces_at_index [Value.num 1, Value.num 2] 0 (Value.num 9)).1
        (by decide)).1,
    ((updateItem_replaces_at_index [Value.num 1, Value.num 2] 0 (Value.num 9)).1
        (by decide)).2.2 1 (by decide)⟩,
   (updateItem_replaces_at_index [Value.num 1] 3 (Value.num 9)).2 (by decide)⟩

/-- A concrete oracle for closed evaluations (its behavior is irrelevant to
every statement that uses it). -/
def trivialOracle : FormatOracle :=
  { email := fun _ => false, url := fun _ => false,
    dateGE := fun _ _ => false, dateLE := fun _ _ => false }

/-- The checkbox of spec Scenario D: custom on/off encoding, required. -/
def termsField : FieldConfig :=
  { type := FieldType.checkbox, name := "terms", label := "Terms",
    required := true, requiredMessage := some "You must agree to the terms",
    checkedValue := some (Value.str "yes"), uncheckedValue := some (Value.str "no") }

/-- Claim C3 (code bug): for a required checkbox with both custom values, the
source chains `.oneOf([checked, unchecked]).oneOf([checked], msg)`; yup's
`oneOf` accumulates its whitelist, so the synthesized validator still
accepts the unchecked value and the required error never fires for it.  The
default value "no" therefore validates cleanly, against the stated intent
(and the source's own comment "validate against the checked value"). -/
theorem checkbox_required_accepts_unchecked :
    rget (generateDefaultValues [termsField]) "terms" = some (Value.str "no") ∧
    validateField trivialOracle termsField (Value.str "no") = none ∧
    (fieldValidator trivialOracle termsField).whitelist = [Value.str "yes", Value.str "no"] ∧
    (fieldValidator trivialOracle termsField).whitelistMsg = "You must agree to the terms" ∧
    validateField trivialOracle termsField (Value.str "yes") = none ∧
    validateField trivialOracle termsField (Value.str "maybe") =
      some "You must agree to the terms" := by
  refine ⟨rfl, rfl, rfl, rfl, rfl, rfl⟩

/-- A single-file field with `disableError` set; its derived default is
`null`. -/
def avatarField : FieldConfig :=
  { type := FieldType.file, name := "avatar", label := "Avatar", disableError := true }

/-- Claim C5 (code bug): `disableError` short-circuits to bare `yup.mixed()`,
which under yup v1 is non-nullable — validating `null` (the derived default
of a single-file field) reports "cannot be null" instead of passing, so the
always-pass contract fails at exactly the value `null`; every non-null
value does pass. -/
theorem disabled_field_still_rejects_null :
    avatarField.disableError = true ∧
    rget (generateDefaultValues [avatarField]) "avatar" = some Value.null ∧
    validateField trivialOracle avatarField Value.null = some notNullMsg ∧
    validateField trivialOracle avatarField Value.undef = none ∧
    validateField trivialOracle avatarField (Value.str "") = none ∧
    validateField trivialOracle avatarField (Value.num 0) = none ∧
    validateField trivialOracle avatarField (Value.list []) = none ∧
    validateField trivialOracle avatarField (Value.bool false) = none := by
  refine ⟨rfl, rfl, rfl, rfl, rfl, rfl, rfl, rfl⟩

/-- Claim C2: for a `number` field, the synthesized declarative min/max
tests are `numMinTest`/`numMaxTest`; the presence of a `customValidation`
makes both pass for every value, while without one a numeric value fails
the min test exactly when it is below `min`, fails the max test exactly
when it is above `max`, and `null`/`undefined` skip both. -/
theorem number_bounds_defer_to_custom (O : FormatOracle) (f : FieldConfig)
    (m M : Int) (v : Value) (n : Int) :
    (f.type = FieldType.number → f.disableError = false → f.min = some m →
      f.max = some M →
      (fieldValidator O f).tests =
        [(jsOrS f.minMessage (f.label ++ " must be at least " ++ toString m),
            numMinTest f m),
         (jsOrS f.maxMessage (f.label ++ " must be at most " ++ toString M),
            numMaxTest f M)]) ∧
    (f.customValidation.isSome = true →
      numMinTest f m v = true ∧ numMaxTest f M v = true) ∧
    (f.customValidation = none →
      (numMinTest f m (Value.num n) = false ↔ n < m) ∧
      (numMaxTest f M (Value.num n) = false ↔ M < n) ∧
      numMinTest f m Value.null = true ∧ numMinTest f m Value.undef = true ∧
      numMaxTest f M Value.null = true ∧ numMaxTest f M Value.undef = true) := by
  refine ⟨?_, ?_, ?_⟩
  · intro ht hd hmin hmax
    rw [fieldValidator_tests O f hd]
    unfold baseValidator
    rw [ht]
    simp only [hmin, hmax]
    cases hr : f.required <;>
      simp [Y.number, Y.required, Y.nullable, Y.test]
  · intro hsome
    constructor <;>
      · simp only [numMinTest, numMaxTest]
        cases habs : v.isAbsent <;> simp [habs, hsome]
  · intro hnone
    have hs : f.customValidation.isSome = false := by simp [hnone]
    refine ⟨?_, ?_, ?_, ?_, ?_, ?_⟩ <;>
      · simp [numMinTest, numMaxTest, Value.isAbsent, hs]
        try omega

/-- The Scenario A number field. -/
def ageField : FieldConfig :=
  { type := FieldType.number, name := "age", label := "age",
    required := true, min := some 18, max := some 100 }

/-- The same field with a (vacuously passing) custom validator attached. -/
def ageFieldCustom : FieldConfig :=
  { type := FieldType.number, name := "age", label := "age",
    required := true, min := some 18, max := some 100,
    customValidation := some (fun _ => CustomResult.ret (Value.bool true)) }

/-- Claim C2 witness. -/
theorem number_bounds_defer_to_custom_witness :
    ((fieldValidator trivialOracle ageField).tests =
      [("age must be at least 18", numMinTest ageField 18),
       ("age must be at most 100", numMaxTest ageField 100)]) ∧
    (numMinTest ageFieldCustom 18 (Value.num 5) = true ∧
      numMaxTest ageFieldCustom 100 (Value.num 500) = true) ∧
    (numMinTest ageField 18 (Value.num 15) = false ↔ (15 : Int) < 18) :=
  ⟨(number_bounds_defer_to_custom trivialOracle ageField 18 100 Value.null 0).1
      rfl rfl rfl rfl,
   ⟨((number_bounds_defer_to_custom trivialOracle ageFieldCustom 18 100
        (Value.num 5) 0).2.1 rfl).1,
    ((number_bounds_defer_to_custom trivialOracle ageFieldCustom 18 100
        (Value.num 500) 0).2.1 rfl).2⟩,
   ((number_bounds_defer_to_custom trivialOracle ageField 18 100 Value.null 15).2.2
      rfl).1⟩

/-- Claim C10: the custom two-value encoding of a checkbox is used only when
both `checkedValue` and `uncheckedValue` are defined; with exactly one of
them defined the plain boolean validator is synthesized (required means the
value must equal `true`), and the default-value deriver falls back to
`false` whenever `uncheckedValue` is undefined. -/
theorem checkbox_one_sided_falls_back (O : FormatOracle) (f : FieldConfig)
    (c u : Value) (b : Bool) :
    (f.type = FieldType.checkbox → f.disableError = false →
      ((f.checkedValue = some c → f.uncheckedValue = none →
          (fieldValidator O f).kind = YKind.boolean) ∧
       (f.checkedValue = none → f.uncheckedValue = some u →
          (fieldValidator O f).kind = YKind.boolean) ∧
       ((fieldValidator O f).kind = YKind.mixed ↔
          f.checkedValue.isSome = true ∧ f.uncheckedValue.isSome = true) ∧
       (f.customValidation = none → f.checkedValue = some c →
          f.uncheckedValue = none → f.required = true →
          (validateField O f (Value.bool b) = none ↔ b = true)))) ∧
    (f.type = FieldType.checkbox → f.uncheckedValue = none →
      defaultForField f = jsNullish f.defaultValue (Value.bool false)) := by
  constructor
  · intro ht hd
    refine ⟨?_, ?_, ?_, ?_⟩
    · intro hc hu
      rw [fieldValidator_kind O f hd]
      unfold baseValidator
      rw [ht, hc, hu]
      cases hr : f.required <;> simp [Y.boolean, Y.oneOf]
    · intro hc hu
      rw [fieldValidator_kind O f hd]
      unfold baseValidator
      rw [ht, hc, hu]
      cases hr : f.required <;> simp [Y.boolean, Y.oneOf]
    · rw [fieldValidator_kind O f hd]
      unfold baseValidator
      rw [ht]
      cases hc : f.checkedValue <;> cases hu : f.uncheckedValue <;>
        cases hr : f.required <;>
        simp [Y.boolean, Y.oneOf, Y.mixed]
    · intro hcustom hc hu hr
      unfold validateField fieldValidator
      rw [if_neg (by simp [hd]), hcustom]
      unfold baseValidator
      rw [ht, hc, hu, hr]
      cases b <;>
        simp [validateField, yval, castVal, runPresence, runWhitelist, runTests,
          runCustomTests, Y.boolean, Y.oneOf, Value.isAbsent]
  · intro ht hu
    unfold defaultForField
    rw [ht, hu]

/-- A required checkbox with only `checkedValue` configured. -/
def optInField : FieldConfig :=
  { type := FieldType.checkbox, name := "optin", label := "OptIn",
    required := true, checkedValue := some (Value.str "yes") }

/-- Claim C10 witness. -/
theorem checkbox_one_sided_falls_back_witness :
    (fieldValidator trivialOracle optInField).kind = YKind.boolean ∧
    (validateField trivialOracle optInField (Value.bool false) = none ↔ false = true) ∧
    defaultForField optInField = jsNullish optInField.defaultValue (Value.bool false) :=
  ⟨((checkbox_one_sided_falls_back trivialOracle optInField (Value.str "yes")
        Value.undef false).1 rfl rfl).1 rfl rfl,
   ((checkbox_one_sided_falls_back trivialOracle optInField (Value.str "yes")
        Value.undef false).1 rfl rfl).2.2.2 rfl rfl rfl rfl,
   (checkbox_one_sided_falls_back trivialOracle optInField (Value.str "yes")
        Value.undef false).2 rfl rfl⟩

/-- Claim C4: when a field carries a `customValidation`, the synthesized
validator ends with exactly one custom test carrying
`customValidationMessage` (or the default "label is invalid"); that test
fails — with that message, not a propagated exception — on a fault (throw
or rejection), passes exactly on a settled `true` or `""`, and validation
of the other fields in the list is computed independently (the last field's
result is whatever its own validator says, whatever faults occurred
before it). -/
theorem custom_fault_is_contained (O : FormatOracle) (f : FieldConfig)
    (g : Value → CustomResult) (v : Value) (r : Value) (F : List FieldConfig)
    (data : List (String × Value)) (h : FieldConfig) :
    (f.customValidation = some g → f.disableError = false →
      (fieldValidator O f).customTests =
        [(jsOrS f.customValidationMessage (f.label ++ " is invalid"), g)]) ∧
    (g v = CustomResult.fault →
      runCustomTests [(jsOrS f.customValidationMessage (f.label ++ " is invalid"), g)] v =
        [jsOrS f.customValidationMessage (f.label ++ " is invalid")]) ∧
    (g v = CustomResult.ret r →
      (runCustomTests [(jsOrS f.customValidationMessage (f.label ++ " is invalid"), g)] v =
          [] ↔ (r = Value.bool true ∨ r = Value.str ""))) ∧
    (rget (validateAll O (F ++ [h]) data) h.name =
      validateField O h (recGet data h.name)) := by
  refine ⟨?_, ?_, ?_, ?_⟩
  · intro hc hd
    unfold fieldValidator
    rw [if_neg (by simp [hd]), hc]
    simp [Y.testCustom, baseValidator_customTests]
  · intro hg
    simp [runCustomTests, hg]
  · intro hg
    simp only [runCustomTests, List.filterMap, hg]
    by_cases hr : r = Value.bool true ∨ r = Value.str ""
    · simp [hr]
    · push_neg at hr
      simp [hr.1, hr.2]
  · unfold validateAll
    rw [List.foldl_append]
    simp only [List.foldl_cons, List.foldl_nil]
    cases hv : validateField O h (recGet data h.name) with
    | none => simp [rget_rdel_self]
    | some msg => simp [rget_rset_self]

/-- A text field whose custom validator always faults. -/
def faultyField : FieldConfig :=
  { type := FieldType.text, name := "nick", label := "Nick",
    customValidation := some (fun _ => CustomResult.fault),
    customValidationMessage := some "Nick is broken" }

/-- A plain sibling field listed after the faulty one. -/
def tailField : FieldConfig :=
  { type := FieldType.text, name := "ok", label := "Ok" }

/-- Claim C4 witness. -/
theorem custom_fault_is_contained_witness :
    ((fieldValidator trivialOracle faultyField).customTests =
      [("Nick is broken", fun _ => CustomResult.fault)]) ∧
    (runCustomTests [("Nick is broken", fun _ => CustomResult.fault)] (Value.str "zz") =
      ["Nick is broken"]) ∧
    (runCustomTests [("Nick is broken", fun _ => CustomResult.ret (Value.bool true))]
        (Value.str "zz") = [] ↔
      (Value.bool true = Value.bool true ∨ Value.bool true = Value.str "")) ∧
    (rget (validateAll trivialOracle ([faultyField] ++ [tailField]) []) "ok" =
      validateField trivialOracle tailField (recGet [] "ok")) :=
  ⟨(custom_fault_is_contained trivialOracle faultyField (fun _ => CustomResult.fault)
      (Value.str "zz") Value.undef [] [] tailField).1 rfl rfl,
   (custom_fault_is_contained trivialOracle faultyField (fun _ => CustomResult.fault)
      (Value.str "zz") Value.undef [] [] tailField).2.1 rfl,
   (custom_fault_is_contained trivialOracle faultyField
      (fun _ => CustomResult.ret (Value.bool true)) (Value.str "zz") (Value.bool true)
      [] [] tailField).2.2.1 rfl,
   (custom_fault_is_contained trivialOracle faultyField (fun _ => CustomResult.fault)
      (Value.str "zz") Value.undef [faultyField] [] tailField).2.2.2⟩

/-- Claim C1: `submit()` first runs the manual array re-check — whose error
slot for an array field is exactly: the required message when `required`
and length 0, else the maxItems message when over the cap, else the
minItems message when under the floor — then triggers schema validation of
every field, and the host callback is invoked, with exactly the current
values, if and only if the error map is empty afterwards. -/
theorem submit_callback_iff_no_errors (O : FormatOracle) (fields : List FieldConfig)
    (data : List (String × Value)) (f : FieldConfig) :
    ((submitOp O fields data).2 = some data ↔ (submitOp O fields data).1 = []) ∧
    (∀ d, (submitOp O fields data).2 = some d → d = data) ∧
    (rget (manualCheckField f data []) f.name =
      (if f.required = true ∧ (asArray (recGet data f.name)).length = 0 then
        some (reqMsg f)
      else
        match f.maxItems with
        | some nn =>
            if nn < (asArray (recGet data f.name)).length then
              some (jsOrS f.maxItemsMessage
                (f.label ++ " must have at most " ++ toString nn ++ " items"))
            else
              match f.minItems with
              | some mm =>
                  if (asArray (recGet data f.name)).length < mm then
                    some (jsOrS f.minItemsMessage
                      (f.label ++ " must have at least " ++ toString mm ++ " items"))
                  else none
              | none => none
        | none =>
            match f.minItems with
            | some mm =>
                if (asArray (recGet data f.name)).length < mm then
                  some (jsOrS f.minItemsMessage
                    (f.label ++ " must have at least " ++ toString mm ++ " items"))
                else none
            | none => none)) := by
  have hsnd : (handleSubmit O fields data).2 = (handleSubmit O fields data).1.isEmpty := rfl
  refine ⟨?_, ?_, ?_⟩
  · unfold submitOp
    by_cases hpre : (validateAll O fields data).isEmpty = true
    · rw [if_pos hpre]
      dsimp only
      cases h2 : (handleSubmit O fields data).2 with
      | true =>
          have h1 : (handleSubmit O fields data).1 = [] :=
            List.isEmpty_iff.mp (hsnd.symm.trans h2)
          simp [h1]
      | false =>
          have h1 : (handleSubmit O fields data).1 ≠ [] := by
            intro hcon
            have : (handleSubmit O fields data).2 = true := by
              rw [hsnd, hcon]; rfl
            rw [h2] at this
            exact Bool.false_ne_true this
          simp [h1]
    · rw [if_neg hpre]
      dsimp only
      have h1 : validateAll O fields data ≠ [] := by
        intro hcon
        apply hpre
        rw [hcon]; rfl
      simp [h1]
  · intro d hd
    unfold submitOp at hd
    by_cases hpre : (validateAll O fields data).isEmpty = true
    · rw [if_pos hpre] at hd
      dsimp only at hd
      cases h2 : (handleSubmit O fields data).2 with
      | true =>
          rw [h2] at hd
          simp at hd
          exact hd.symm
      | false =>
          rw [h2] at hd
          simp at hd
    · rw [if_neg hpre] at hd
      dsimp only at hd
      exact absurd hd (by simp)
  · unfold manualCheckField
    cases hmin : f.minItems <;> cases hmax : f.maxItems <;>
      dsimp only <;>
      split_ifs <;>
      first
        | omega
        | simp [rset_nil, rset_single, rget_single, rget_nil]

/-- The Scenario C array field. -/
def itemsField : FieldConfig :=
  { type := FieldType.array, name := "items", label := "Items",
    required := true, minItems := some 1, maxItems := some 2,
    itemType := FieldType.text }

/-- Claim C1 witness. -/
theorem submit_callback_iff_no_errors_witness :
    ((submitOp trivialOracle [ageField] [("age", Value.num 25)]).2 =
        some [("age", Value.num 25)] ↔
      (submitOp trivialOracle [ageField] [("age", Value.num 25)]).1 = []) ∧
    (submitOp trivialOracle [ageField] [("age", Value.num 25)]).2 =
      some [("age", Value.num 25)] ∧
    rget (manualCheckField itemsField [("items", Value.list [])] []) "items" =
      some "Items is required" :=
  ⟨(submit_callback_iff_no_errors trivialOracle [ageField] [("age", Value.num 25)]
      ageField).1,
   (submit_callback_iff_no_errors trivialOracle [ageField] [("age", Value.num 25)]
      ageField).1.mpr (by decide),
   by
    have h := (submit_callback_iff_no_errors trivialOracle []
      [("items", Value.list [])] itemsField).2.2
    simpa using h⟩
